import Mathlib

/-!
Verification development for the `elsevier_apis` repository
(`Scopus_APIs.ipynb`): a client for the Scopus Search API and the
Abstract Retrieval API.  The notebook's pure fragments (query building,
URL formatting) are embedded as Lean functions; the stateful pagination
while-loop is embedded as a fuel-indexed recursion over a mocked page
fetcher; Python dictionaries become association lists and Python string
truthiness becomes an explicit predicate on a value type.
-/

/-! ### Generic character-list machinery

Python-level facts about the built query strings and URLs (substring
occurrence counts, placeholder absence) are expressed over `List Char`
via `String.data`. -/

/-- `isPref pat s` : `pat` is a prefix of `s` (boolean, by character). -/
def isPref : List Char → List Char → Bool
  | [], _ => true
  | _ :: _, [] => false
  | p :: ps, c :: cs => p == c && isPref ps cs

/-- `hasSub pat s` : `pat` occurs as a contiguous substring of `s`. -/
def hasSub (pat : List Char) : List Char → Bool
  | [] => pat.isEmpty
  | c :: rest => isPref pat (c :: rest) || hasSub pat rest

/-- Number of start positions of `s` (except the empty suffix) at which
`pat` occurs.  For a nonempty `pat` this counts all occurrences of
`pat` inside `s`. -/
def countSub (pat : List Char) : List Char → Nat
  | [] => 0
  | c :: rest => (if isPref pat (c :: rest) then 1 else 0) + countSub pat rest

/-- Occurrences of `pat` that start inside `xs` when `xs` is followed by
`ys` (the occurrence may extend into `ys`). -/
def countB (pat : List Char) : List Char → List Char → Nat
  | [], _ => 0
  | c :: xs, ys => (if isPref pat (c :: (xs ++ ys)) then 1 else 0) + countB pat xs ys

/-- The characters of the query-term separator `" AND "`. -/
def SEPL : List Char := [' ', 'A', 'N', 'D', ' ']

/-- The characters of the bare word `"AND"`. -/
def ANDL : List Char := ['A', 'N', 'D']

/-! ### The search-string builder (`search_builder`)

`search_string_parameters` is a Python dict whose values are strings or
ints; the builder appends one term per truthy value, separated by
`' AND '`.  We embed the dict as an ordered association list and model
Python truthiness (`''` and `0` are falsy) on an explicit value type. -/

/-- A value of the `search_string_parameters` dictionary: a Python
string or int. -/
inductive FieldValue where
  | str (s : String)
  | int (n : Int)
deriving DecidableEq

/-- Python truthiness of a field value: the empty string and `0` are
falsy, everything else truthy. -/
def truthy : FieldValue → Bool
  | FieldValue.str s => s ≠ ""
  | FieldValue.int n => n ≠ 0

/-- Rendering of a value inside an f-string (`f'{v}'`). -/
def render : FieldValue → String
  | FieldValue.str s => s
  | FieldValue.int n => toString n

/-- `search_string += ' AND '` (guarded by `search_string != ''`)
followed by `search_string += term`: one append step of
`search_builder`. -/
def appendTerm (search_string term : String) : String :=
  (if search_string ≠ "" then search_string ++ " AND " else search_string) ++ term

/-- One iteration of `search_builder`'s `for k,v in ... .items()` loop:
`start_year`/`end_year` values render as `PUBYEAR > v` / `PUBYEAR < v`,
any other truthy value as `k(v)`; falsy values are skipped. -/
def search_builder_step (search_string : String) (kv : String × FieldValue) : String :=
  if kv.1 = "start_year" then
    if truthy kv.2 then appendTerm search_string ("PUBYEAR > " ++ render kv.2)
    else search_string
  else if kv.1 = "end_year" then
    if truthy kv.2 then appendTerm search_string ("PUBYEAR < " ++ render kv.2)
    else search_string
  else if truthy kv.2 then appendTerm search_string (kv.1 ++ "(" ++ render kv.2 ++ ")")
  else search_string

/-- `search_builder` from the notebook: fold the step over the items of
`search_string_parameters` starting from the empty string. -/
def search_builder (params : List (String × FieldValue)) : String :=
  params.foldl search_builder_step ""

/-- The term a single non-default field contributes to the query. -/
def renderTerm (k : String) (v : FieldValue) : String :=
  if k = "start_year" then "PUBYEAR > " ++ render v
  else if k = "end_year" then "PUBYEAR < " ++ render v
  else k ++ "(" ++ render v ++ ")"

/-- The rendered terms of exactly the non-default (truthy) fields, in
mapping iteration order. -/
def termsList (params : List (String × FieldValue)) : List String :=
  (params.filter fun kv => truthy kv.2).map fun kv => renderTerm kv.1 kv.2

/-- Terms joined by `" AND "`, with no leading or trailing separator. -/
def joinTerms : List String → String
  | [] => ""
  | [t] => t
  | t :: u :: ts => t ++ " AND " ++ joinTerms (u :: ts)

/-- Suffix form of the join: `" AND " ++ t` for every term. -/
def joinTermsSep : List String → String
  | [] => ""
  | t :: ts => " AND " ++ t ++ joinTermsSep ts

/-! ### URL formatting (`create_url`, both variants)

The notebook builds URLs with `url_template.format(...)` over literal
templates; substitution into a literal template is embedded as string
concatenation of the template's literal segments. -/

/-- `create_url` for the Scopus Search API: substitutes the search
string and the key into
`'https://api.elsevier.com/content/search/scopus?query={query}&apiKey={api_key}'`. -/
def create_url (search_string api_key : String) : String :=
  "https://api.elsevier.com/content/search/scopus?query=" ++ search_string
    ++ "&apiKey=" ++ api_key

/-- `create_url` for the Abstract Retrieval API (the notebook redefines
`create_url`): substitutes a DOI and the key into
`'https://api.elsevier.com/content/abstract/doi/{doi}?&apiKey={api_key}'`. -/
def create_url_doi (doi api_key : String) : String :=
  "https://api.elsevier.com/content/abstract/doi/" ++ doi ++ "?&apiKey=" ++ api_key

/-- The literal placeholder text `{query}` of the search template. -/
def phQuery : String := "\x7bquery\x7d"

/-- The literal placeholder text `{api_key}` of both templates. -/
def phApiKey : String := "\x7bapi_key\x7d"

/-- The literal placeholder text `{doi}` of the retrieval template. -/
def phDoi : String := "\x7bdoi\x7d"

/-! ### The page fetcher (`connect_to_endpoint`, both variants)

The response of one `requests.get` call is a status code, a decoded
body and the response headers; `r.raise_for_status()` raises an
`HTTPError` carrying the status exactly for the 4xx/5xx codes, so the
fetchers return `Except Nat`, the error holding the status code. -/

/-- The rate-limit headers the notebook reads (as numbers; the code
applies `int(...)` to the header strings). -/
structure RateHeaders where
  limit : Nat
  remaining : Nat
  reset : Nat
deriving DecidableEq

/-- One HTTP response: status code, decoded JSON body and headers. -/
structure HttpResponse (β : Type) where
  status : Nat
  body : β
  headers : RateHeaders
deriving DecidableEq

/-- Python `d[k] = v` on a dict embedded as an ordered association
list: replace the value in place if the key is present, else append. -/
def dictSet : List (String × String) → String → String → List (String × String)
  | [], k, v => [(k, v)]
  | (k', v') :: rest, k, v =>
    if k' = k then (k, v) :: rest else (k', v') :: dictSet rest k v

/-- Python `d[k]` lookup on the same embedding. -/
def dictGet : List (String × String) → String → Option String
  | [], _ => none
  | (k', v') :: rest, k => if k' = k then some v' else dictGet rest k

/-- `r.raise_for_status()` raises exactly for the 4xx/5xx codes. -/
def errorStatus (s : Nat) : Prop := 400 ≤ s ∧ s < 600

instance (s : Nat) : Decidable (errorStatus s) := by
  unfold errorStatus; infer_instance

/-- Search-variant `connect_to_endpoint`: overwrite `params['cursor']`
with `next_`, issue the GET (`net` is the network), raise for an error
status, else return `r.json()['search-results']` (abstracted as the
body `β`) with the headers.  The first component is the `params` dict
after the call (the Python function mutates the caller's dict). -/
def connect_to_endpoint {β : Type} (net : String → List (String × String) → HttpResponse β)
    (full_url : String) (params : List (String × String)) (next_ : String) :
    List (String × String) × Except Nat (β × RateHeaders) :=
  let params' := dictSet params "cursor" next_
  let r := net full_url params'
  (params',
    if errorStatus r.status then Except.error r.status
    else Except.ok (r.body, r.headers))

/-- Retrieval-variant `connect_to_endpoint`: issue the GET with an
`Accept: application/json` header, raise for an error status, else
return the decoded body with the headers. -/
def connect_to_endpoint_doi {β : Type} (net : String → List (String × String) → HttpResponse β)
    (full_url : String) : Except Nat (β × RateHeaders) :=
  let r := net full_url [("Accept", "application/json")]
  if errorStatus r.status then Except.error r.status
  else Except.ok (r.body, r.headers)

/-! ### The pagination while-loop

The loop keeps a cursor `next_` (initially `'*'`), a flag, and a
dataframe `df` that is only assigned inside the loop (`Option` models
the possibly-unbound Python variable; `List α` models the rows of the
dataframe, `α` the record type).  Each iteration sleeps 0.12 s, fetches
one page, and then branches on the response's cursor pair.  The mocked
fetcher is a call-indexed response sequence; `fuel` bounds the number
of iterations so the recursion is total. -/

/-- The search-results envelope fields the loop reads:
`opensearch:totalResults` (after `int(...)`), the `cursor` object's
`@current`/`@next`, and the `entry` record list. -/
structure SearchPage (α : Type) where
  totalResults : Nat
  cursorCurrent : String
  cursorNext : String
  entry : List α
deriving DecidableEq

/-- Observable events of one run: the `time.sleep(0.12)` pacing pause,
one fetch (`connect_to_endpoint` call), and the quota warning print. -/
inductive LoopEvent where
  | sleep
  | fetch
  | warn
deriving DecidableEq

/-- Terminal result of a run of the while-loop. -/
inductive RunResult (α : Type) where
  /-- Normal exit (`flag = False` on the page with `@next == @current`):
  final dataframe rows and number of fetches issued. -/
  | done (df : List α) (fetches : Nat)
  /-- Quota guard `break` on the first page: the first page's rows. -/
  | quota (df : List α) (fetches : Nat)
  /-- An uncaught `HTTPError` from `raise_for_status`: its status code,
  the dataframe at the moment the exception propagates, fetch count. -/
  | httpError (status : Nat) (df : Option (List α)) (fetches : Nat)
  /-- Python `NameError`: a branch read `df` before any assignment. -/
  | nameError (fetches : Nat)
  /-- Fuel ran out with the loop still running. -/
  | outOfFuel
deriving DecidableEq

/-- The body of the notebook's `while flag:` loop, iterated `fuel`
times at most.  `responses i c` is the result of the `i`-th
`connect_to_endpoint` call (0-indexed) when the cursor sent is `c`;
`next_` and `df` are the loop variables.  Returns the terminal result
and the emitted event trace. -/
def searchLoop {α : Type} (responses : Nat → String → Except Nat (SearchPage α × RateHeaders)) :
    Nat → Nat → String → Option (List α) → RunResult α × List LoopEvent
  | 0, _, _, _ => (RunResult.outOfFuel, [])
  | fuel + 1, i, next_, df =>
    match responses i next_ with
    | Except.error s => (RunResult.httpError s df (i + 1), [LoopEvent.sleep, LoopEvent.fetch])
    | Except.ok (j, h) =>
      if j.cursorCurrent = "*" then
        if j.totalResults > h.remaining then
          (RunResult.quota j.entry (i + 1), [LoopEvent.sleep, LoopEvent.fetch, LoopEvent.warn])
        else
          let r := searchLoop responses fuel (i + 1) j.cursorNext (some j.entry)
          (r.1, LoopEvent.sleep :: LoopEvent.fetch :: r.2)
      else if j.cursorNext = j.cursorCurrent then
        match df with
        | none => (RunResult.nameError (i + 1), [LoopEvent.sleep, LoopEvent.fetch])
        | some d => (RunResult.done d (i + 1), [LoopEvent.sleep, LoopEvent.fetch])
      else
        match df with
        | none => (RunResult.nameError (i + 1), [LoopEvent.sleep, LoopEvent.fetch])
        | some d =>
          let r := searchLoop responses fuel (i + 1) j.cursorNext (some (d ++ j.entry))
          (r.1, LoopEvent.sleep :: LoopEvent.fetch :: r.2)

/-- A full pagination run: `next_ = '*'`, `flag = True`, `df` unbound. -/
def pagination_run {α : Type} (responses : Nat → String → Except Nat (SearchPage α × RateHeaders))
    (fuel : Nat) : RunResult α × List LoopEvent :=
  searchLoop responses fuel 0 "*" none

/-- A fetch event is always immediately preceded by a sleep event. -/
def fetchPaced (tr : List LoopEvent) : Prop :=
  ∀ k, tr.get? k = some LoopEvent.fetch →
    ∃ k', k = k' + 1 ∧ tr.get? k' = some LoopEvent.sleep

/-! ### Persistence of a ResultSet

The notebook persists `df` with `pickle.dump` and reads it back with
`pickle.load`, checking `df.equals(articles_df)`.  `pickle` is a
library external to the repository, so the persistence layer is
modelled from the spec: an opaque blob (`List Nat`) with serialisation
and deserialisation whose only contract is round-trip equality.  A
table is the accumulated rows, each row a record of key/value pairs. -/

/-- Modelled from the spec: the tabular snapshot of a ResultSet that is
pickled — an ordered sequence of records, each an ordered list of
field/value pairs (the repository's serializer itself, `pickle`, is
not part of the source). -/
def ResultTable : Type := List (List (String × String))

/-- Encode one string into the blob: length, then character codes. -/
def encodeStr (s : String) : List Nat :=
  s.length :: s.data.map Char.toNat

/-- Decode one string from the front of a blob. -/
def decodeStr : List Nat → Option (String × List Nat)
  | [] => none
  | n :: rest =>
    if n ≤ rest.length then
      some (String.mk ((rest.take n).map Char.ofNat), rest.drop n)
    else none

/-- Encode one field/value pair. -/
def encodePair (kv : String × String) : List Nat :=
  encodeStr kv.1 ++ encodeStr kv.2

/-- Decode one field/value pair. -/
def decodePair (b : List Nat) : Option ((String × String) × List Nat) :=
  match decodeStr b with
  | none => none
  | some (k, b1) =>
    match decodeStr b1 with
    | none => none
    | some (v, b2) => some ((k, v), b2)

/-- Decode `n` consecutive items with the item decoder `dec`. -/
def decodeMany {β : Type} (dec : List Nat → Option (β × List Nat)) :
    Nat → List Nat → Option (List β × List Nat)
  | 0, b => some ([], b)
  | n + 1, b =>
    match dec b with
    | none => none
    | some (x, b1) =>
      match decodeMany dec n b1 with
      | none => none
      | some (xs, b2) => some (x :: xs, b2)

/-- Encode one row: pair count, then the pairs. -/
def encodeRow (r : List (String × String)) : List Nat :=
  r.length :: (r.map encodePair).flatten

/-- Decode one row. -/
def decodeRow : List Nat → Option (List (String × String) × List Nat)
  | [] => none
  | n :: rest => decodeMany decodePair n rest

/-- Serialize a table: row count, then the rows. -/
def serializeTable (t : ResultTable) : List Nat :=
  t.length :: (t.map encodeRow).flatten

/-- Deserialize a blob back into a table, requiring the whole blob to
be consumed. -/
def deserializeTable : List Nat → Option ResultTable
  | [] => none
  | n :: rest =>
    match decodeMany decodeRow n rest with
    | some (t, []) => some t
    | _ => none

/-! ## Helper lemmas -/

theorem str_data_append (s t : String) : (s ++ t).data = s.data ++ t.data := by
  cases s; cases t; rfl

theorem str_ext {s t : String} (h : s.data = t.data) : s = t :=
  String.ext h

theorem str_eq_empty_iff (s : String) : s = "" ↔ s.data = [] := by
  rw [String.ext_iff]

theorem str_ne_empty_iff (s : String) : s ≠ "" ↔ s.data ≠ [] :=
  not_congr (str_eq_empty_iff s)

/-! ## C9: the cursor sent always equals the `next_` argument -/

/-- C9: for every params dict and every `next_` token, the `cursor`
entry of the params dict that the search-variant `connect_to_endpoint`
actually sends with the GET equals `next_`: the assignment
`params['cursor'] = next_` overwrites any caller-supplied cursor. -/
theorem cursor_param_equals_next {β : Type}
    (net : String → List (String × String) → HttpResponse β)
    (full_url : String) (params : List (String × String)) (next_ : String) :
    dictGet (connect_to_endpoint net full_url params next_).1 "cursor" = some next_ := by
  show dictGet (dictSet params "cursor" next_) "cursor" = some next_
  induction params with
  | nil => simp [dictSet, dictGet]
  | cons kv rest ih =>
    obtain ⟨k', v'⟩ := kv
    by_cases hk : k' = "cursor"
    · simp [dictSet, dictGet, hk]
    · simp [dictSet, dictGet, hk, ih]

/-! ## C10: a failing fetch leaves the accumulated dataframe unchanged -/

/-- C10: if the fetch of an iteration raises an `HTTPError`
(`raise_for_status`), the dataframe at the moment the exception
propagates is exactly the incoming `df` of that iteration — the status
check happens inside `connect_to_endpoint`, before any accumulation,
so the failing iteration adds nothing. -/
theorem fetch_error_leaves_df_unchanged {α : Type}
    (responses : Nat → String → Except Nat (SearchPage α × RateHeaders))
    (fuel i : Nat) (next_ : String) (df : Option (List α)) (s : Nat)
    (h : responses i next_ = Except.error s) :
    searchLoop responses (fuel + 1) i next_ df =
      (RunResult.httpError s df (i + 1), [LoopEvent.sleep, LoopEvent.fetch]) := by
  simp [searchLoop, h]

/-- Witness for C10 at a concrete run: the fetcher fails at once and
the unbound dataframe is handed back untouched. -/
theorem fetch_error_leaves_df_unchanged_witness :
    searchLoop (fun _ _ => Except.error 500) (3 + 1) 0 "*" (none : Option (List Nat)) =
      (RunResult.httpError 500 none 1, [LoopEvent.sleep, LoopEvent.fetch]) :=
  fetch_error_leaves_df_unchanged (fun _ _ => Except.error 500) 3 0 "*" none 500 rfl

/-! ## C2: the quota guard stops the run after one fetch -/

/-- C2: if the first response is a first page (`@current == '*'`) whose
total-result count exceeds `X-RateLimit-Remaining`, the run stops after
exactly one fetch via `break`: the warning is printed, no further fetch
happens, and the dataframe holds exactly the first page's records. -/
theorem pagination_quota_guard_stops_after_one_fetch {α : Type}
    (responses : Nat → String → Except Nat (SearchPage α × RateHeaders))
    (p1 : SearchPage α) (h1 : RateHeaders) (fuel : Nat)
    (hr0 : responses 0 "*" = Except.ok (p1, h1))
    (hc1 : p1.cursorCurrent = "*")
    (hq : p1.totalResults > h1.remaining)
    (hfuel : 1 ≤ fuel) :
    pagination_run responses fuel =
      (RunResult.quota p1.entry 1, [LoopEvent.sleep, LoopEvent.fetch, LoopEvent.warn]) := by
  obtain ⟨f, rfl⟩ : ∃ f, fuel = f + 1 := ⟨fuel - 1, by omega⟩
  simp [pagination_run, searchLoop, hr0, hc1, hq]

/-- Witness for C2: total-results 100 against remaining 50 stops after
one fetch with the first page's two records. -/
theorem pagination_quota_guard_stops_after_one_fetch_witness :
    pagination_run
        (fun i _ => if i = 0 then Except.ok (⟨100, "*", "a", [1, 2]⟩, ⟨20000, 50, 0⟩)
                    else Except.error 404)
        3 =
      (RunResult.quota ([1, 2] : List Nat) 1,
        [LoopEvent.sleep, LoopEvent.fetch, LoopEvent.warn]) :=
  pagination_quota_guard_stops_after_one_fetch
    (fun i _ => if i = 0 then Except.ok (⟨100, "*", "a", [1, 2]⟩, ⟨20000, 50, 0⟩)
                else Except.error 404)
    ⟨100, "*", "a", [1, 2]⟩ ⟨20000, 50, 0⟩ 3 rfl rfl (by decide) (by decide)

/-! ## C1: two-fetch termination; the terminal page's records are dropped -/

/-- C1 counterexample: first page `@current == '*'` with two records,
second page with `@next == @current` carrying one record.  The loop
does terminate after exactly 2 fetches, but the terminal page's record
is **not** accumulated: the dataframe has 2 rows, not the claimed
2 + 1 = 3 (the `elif` branch only flips the flag and never concatenates
the final page's `entry`). -/
theorem pagination_terminal_page_records_dropped :
    pagination_run
        (fun i _ => if i = 0 then Except.ok (⟨2, "*", "a", [1, 2]⟩, ⟨20000, 100, 0⟩)
                    else if i = 1 then Except.ok (⟨2, "a", "a", [3]⟩, ⟨20000, 99, 0⟩)
                    else Except.error 404)
        5 =
      (RunResult.done ([1, 2] : List Nat) 2,
        [LoopEvent.sleep, LoopEvent.fetch, LoopEvent.sleep, LoopEvent.fetch]) ∧
    ([1, 2] : List Nat).length ≠ ([1, 2] : List Nat).length + ([3] : List Nat).length := by
  constructor
  · rfl
  · decide

/-- C1, amended: if the first response is a first page
(`@current == '*'`) that does not trip the quota guard, and the second
response is a page with `@current ≠ '*'` and `@next == @current`, the
loop terminates after exactly 2 fetches and the dataframe holds exactly
the records of the first call (the terminal page's records are
discarded). -/
theorem pagination_two_fetch_termination {α : Type}
    (responses : Nat → String → Except Nat (SearchPage α × RateHeaders))
    (p1 p2 : SearchPage α) (h1 h2 : RateHeaders) (fuel : Nat)
    (hr0 : responses 0 "*" = Except.ok (p1, h1))
    (hr1 : responses 1 p1.cursorNext = Except.ok (p2, h2))
    (hc1 : p1.cursorCurrent = "*")
    (hq : ¬ p1.totalResults > h1.remaining)
    (hc2 : p2.cursorCurrent ≠ "*")
    (hnx : p2.cursorNext = p2.cursorCurrent)
    (hfuel : 2 ≤ fuel) :
    pagination_run responses fuel =
      (RunResult.done p1.entry 2,
        [LoopEvent.sleep, LoopEvent.fetch, LoopEvent.sleep, LoopEvent.fetch]) := by
  obtain ⟨f, rfl⟩ : ∃ f, fuel = f + 1 + 1 := ⟨fuel - 2, by omega⟩
  simp [pagination_run, searchLoop, hr0, hr1, hc1, hq, hc2, hnx]

/-- Witness for C1's amended theorem at a concrete mocked fetcher. -/
theorem pagination_two_fetch_termination_witness :
    pagination_run
        (fun i _ => if i = 0 then Except.ok (⟨2, "*", "a", [1, 2]⟩, ⟨20000, 100, 0⟩)
                    else if i = 1 then Except.ok (⟨2, "a", "a", ([] : List Nat)⟩, ⟨20000, 99, 0⟩)
                    else Except.error 404)
        2 =
      (RunResult.done ([1, 2] : List Nat) 2,
        [LoopEvent.sleep, LoopEvent.fetch, LoopEvent.sleep, LoopEvent.fetch]) :=
  pagination_two_fetch_termination
    (fun i _ => if i = 0 then Except.ok (⟨2, "*", "a", [1, 2]⟩, ⟨20000, 100, 0⟩)
                else if i = 1 then Except.ok (⟨2, "a", "a", ([] : List Nat)⟩, ⟨20000, 99, 0⟩)
                else Except.error 404)
    ⟨2, "*", "a", [1, 2]⟩ ⟨2, "a", "a", []⟩ ⟨20000, 100, 0⟩ ⟨20000, 99, 0⟩ 2
    rfl rfl rfl (by decide) (by decide) rfl (by decide)

/-! ## C4: HTTP failures carry the status and propagate unretried -/

/-- C4: (i) the search-variant `connect_to_endpoint` fails with an
error carrying exactly the response's status whenever
`raise_for_status` raises (4xx/5xx), with no retry; (ii) likewise for
the retrieval-variant; (iii) if in a pagination run the first response
is a quota-passing first page and the second fetch fails with an error
status, the run ends in the error state after exactly 2 fetches with
the original status code observable. -/
theorem connect_and_loop_error_propagation :
    (∀ (β : Type) (net : String → List (String × String) → HttpResponse β)
        (full_url : String) (params : List (String × String)) (next_ : String),
      errorStatus (net full_url (dictSet params "cursor" next_)).status →
      (connect_to_endpoint net full_url params next_).2 =
        Except.error (net full_url (dictSet params "cursor" next_)).status) ∧
    (∀ (β : Type) (net : String → List (String × String) → HttpResponse β)
        (full_url : String),
      errorStatus (net full_url [("Accept", "application/json")]).status →
      connect_to_endpoint_doi net full_url =
        Except.error (net full_url [("Accept", "application/json")]).status) ∧
    (∀ (α : Type) (responses : Nat → String → Except Nat (SearchPage α × RateHeaders))
        (p1 : SearchPage α) (h1 : RateHeaders) (s fuel : Nat),
      responses 0 "*" = Except.ok (p1, h1) →
      p1.cursorCurrent = "*" →
      ¬ p1.totalResults > h1.remaining →
      responses 1 p1.cursorNext = Except.error s →
      2 ≤ fuel →
      pagination_run responses fuel =
        (RunResult.httpError s (some p1.entry) 2,
          [LoopEvent.sleep, LoopEvent.fetch, LoopEvent.sleep, LoopEvent.fetch])) := by
  refine ⟨?_, ?_, ?_⟩
  · intro β net full_url params next_ herr
    simp [connect_to_endpoint, herr]
  · intro β net full_url herr
    simp [connect_to_endpoint_doi, herr]
  · intro α responses p1 h1 s fuel hr0 hc1 hq hr1 hfuel
    obtain ⟨f, rfl⟩ : ∃ f, fuel = f + 1 + 1 := ⟨fuel - 2, by omega⟩
    simp [pagination_run, searchLoop, hr0, hr1, hc1, hq]

/-- Witness for C4: a 503 on the second call of a concrete run ends in
the error state with status 503 after 2 fetches, and both fetcher
variants surface a 404 unchanged. -/
theorem connect_and_loop_error_propagation_witness :
    (connect_to_endpoint (fun _ _ => HttpResponse.mk 404 (0 : Nat) ⟨0, 0, 0⟩)
        "u" [] "*").2 = Except.error 404 ∧
    connect_to_endpoint_doi (fun _ _ => HttpResponse.mk 404 (0 : Nat) ⟨0, 0, 0⟩)
        "u" = Except.error 404 ∧
    pagination_run
        (fun i _ => if i = 0 then Except.ok (⟨2, "*", "a", [1, 2]⟩, ⟨20000, 100, 0⟩)
                    else Except.error 503)
        2 =
      (RunResult.httpError 503 (some ([1, 2] : List Nat)) 2,
        [LoopEvent.sleep, LoopEvent.fetch, LoopEvent.sleep, LoopEvent.fetch]) :=
  ⟨connect_and_loop_error_propagation.1 Nat
      (fun _ _ => HttpResponse.mk 404 (0 : Nat) ⟨0, 0, 0⟩) "u" [] "*" (by decide),
   connect_and_loop_error_propagation.2.1 Nat
      (fun _ _ => HttpResponse.mk 404 (0 : Nat) ⟨0, 0, 0⟩) "u" (by decide),
   connect_and_loop_error_propagation.2.2 Nat
      (fun i _ => if i = 0 then Except.ok (⟨2, "*", "a", [1, 2]⟩, ⟨20000, 100, 0⟩)
                  else Except.error 503)
      ⟨2, "*", "a", [1, 2]⟩ ⟨20000, 100, 0⟩ 503 2
      rfl rfl (by decide) rfl (by decide)⟩

/-! ## C8: the pacing pause precedes every fetch -/

theorem fetchPaced_nil : fetchPaced [] := by
  intro k hk
  simp at hk

theorem fetchPaced_warn : fetchPaced [LoopEvent.warn] := by
  intro k hk
  rcases k with _ | k <;> simp at hk

theorem fetchPaced_cons {tr : List LoopEvent} (h : fetchPaced tr) :
    fetchPaced (LoopEvent.sleep :: LoopEvent.fetch :: tr) := by
  intro k hk
  match k with
  | 0 => simp at hk
  | 1 => exact ⟨0, rfl, rfl⟩
  | k + 2 =>
    have hk' : tr.get? k = some LoopEvent.fetch := by simpa using hk
    obtain ⟨k', hkeq, hs⟩ := h k hk'
    refine ⟨k' + 2, by omega, ?_⟩
    simpa using hs

/-- C8: in the event trace of any run of the pagination loop, every
fetch event is immediately preceded by the `time.sleep(0.12)` pacing
event of the same iteration: the pause is unconditional and happens
before the fetch. -/
theorem sleep_precedes_every_fetch {α : Type}
    (responses : Nat → String → Except Nat (SearchPage α × RateHeaders))
    (fuel i : Nat) (next_ : String) (df : Option (List α)) :
    fetchPaced (searchLoop responses fuel i next_ df).2 := by
  induction fuel generalizing i next_ df with
  | zero =>
    simpa [searchLoop] using fetchPaced_nil
  | succ f ih =>
    cases hres : responses i next_ with
    | error s =>
      simpa [searchLoop, hres] using fetchPaced_cons fetchPaced_nil
    | ok v =>
      obtain ⟨j, h⟩ := v
      by_cases hc : j.cursorCurrent = "*"
      · by_cases hq : j.totalResults > h.remaining
        · simpa [searchLoop, hres, hc, hq] using fetchPaced_cons fetchPaced_warn
        · simpa [searchLoop, hres, hc, hq] using
            fetchPaced_cons (ih (i + 1) j.cursorNext (some j.entry))
      · by_cases hn : j.cursorNext = j.cursorCurrent
        · cases df with
          | none => simpa [searchLoop, hres, hc, hn] using fetchPaced_cons fetchPaced_nil
          | some d => simpa [searchLoop, hres, hc, hn] using fetchPaced_cons fetchPaced_nil
        · cases df with
          | none => simpa [searchLoop, hres, hc, hn] using fetchPaced_cons fetchPaced_nil
          | some d =>
            simpa [searchLoop, hres, hc, hn] using
              fetchPaced_cons (ih (i + 1) j.cursorNext (some (d ++ j.entry)))

/-- Witness for C8: on a concrete failing run whose trace is
`[sleep, fetch]`, the fetch at index 1 is preceded by the sleep at
index 0. -/
theorem sleep_precedes_every_fetch_witness :
    ∃ k', 1 = k' + 1 ∧
      ((searchLoop (fun _ _ => Except.error 500) 1 0 "*"
          (none : Option (List Nat))).2).get? k' = some LoopEvent.sleep :=
  sleep_precedes_every_fetch (fun _ _ => Except.error 500) 1 0 "*" none 1 rfl

/-! ## String-append helper lemmas -/

theorem str_append_assoc (a b c : String) : a ++ b ++ c = a ++ (b ++ c) :=
  str_ext (by simp [str_data_append])

theorem str_empty_append (t : String) : "" ++ t = t :=
  str_ext (by simp [str_data_append])

theorem str_append_empty (s : String) : s ++ "" = s :=
  str_ext (by simp [str_data_append])

theorem str_append_ne_empty_left {s : String} (t : String) (h : s ≠ "") : s ++ t ≠ "" := by
  rw [str_ne_empty_iff] at h ⊢
  simp [str_data_append, h]

theorem str_append_ne_empty_right (s : String) {t : String} (h : t ≠ "") : s ++ t ≠ "" := by
  rw [str_ne_empty_iff] at h ⊢
  simp [str_data_append, h]

/-! ## Structure of `search_builder`: a separator-joined term list -/

theorem appendTerm_empty_acc (t : String) : appendTerm "" t = t := by
  simp [appendTerm, str_empty_append]

theorem appendTerm_of_ne {acc : String} (t : String) (h : acc ≠ "") :
    appendTerm acc t = acc ++ " AND " ++ t := by
  simp [appendTerm, h]

theorem search_builder_step_eq (acc : String) (k : String) (v : FieldValue) :
    search_builder_step acc (k, v) =
      if truthy v then appendTerm acc (renderTerm k v) else acc := by
  by_cases h1 : k = "start_year" <;> by_cases h2 : k = "end_year" <;>
    by_cases hv : truthy v <;>
      simp [search_builder_step, renderTerm, h1, h2, hv]

theorem renderTerm_ne_empty (k : String) (v : FieldValue) : renderTerm k v ≠ "" := by
  unfold renderTerm
  by_cases h1 : k = "start_year" <;> by_cases h2 : k = "end_year" <;> simp [h1, h2]
  · exact str_append_ne_empty_left (render v) (by decide)
  · exact str_append_ne_empty_left (render v) (by decide)
  · exact str_append_ne_empty_left (render v) (by decide)
  · exact str_append_ne_empty_right (k ++ "(" ++ render v) (by decide)

theorem termsList_mem_ne_empty (params : List (String × FieldValue)) :
    ∀ t ∈ termsList params, t ≠ "" := by
  intro t ht
  obtain ⟨kv, _, rfl⟩ := List.mem_map.mp ht
  exact renderTerm_ne_empty kv.1 kv.2

theorem termsList_cons (k : String) (v : FieldValue) (rest : List (String × FieldValue)) :
    termsList ((k, v) :: rest) =
      if truthy v then renderTerm k v :: termsList rest else termsList rest := by
  by_cases hv : truthy v <;> simp [termsList, List.filter_cons, hv]

theorem foldl_step_eq_foldl_appendTerm (params : List (String × FieldValue)) :
    ∀ acc, params.foldl search_builder_step acc =
      (termsList params).foldl appendTerm acc := by
  induction params with
  | nil => intro acc; rfl
  | cons kv rest ih =>
    intro acc
    obtain ⟨k, v⟩ := kv
    by_cases hv : truthy v
    · rw [List.foldl_cons, search_builder_step_eq, if_pos hv, termsList_cons, if_pos hv,
        List.foldl_cons, ih]
    · rw [List.foldl_cons, search_builder_step_eq, if_neg hv, termsList_cons, if_neg hv, ih]

theorem joinTerms_cons_eq (ts : List String) :
    ∀ t, joinTerms (t :: ts) = t ++ joinTermsSep ts := by
  induction ts with
  | nil => intro t; exact (str_append_empty t).symm
  | cons u ts' ih =>
    intro t
    show t ++ " AND " ++ joinTerms (u :: ts') = t ++ joinTermsSep (u :: ts')
    rw [ih u]
    apply str_ext
    simp [str_data_append, joinTermsSep, str_data_append]

theorem foldl_appendTerm_of_ne (ts : List String) :
    ∀ acc, acc ≠ "" → ts.foldl appendTerm acc = acc ++ joinTermsSep ts := by
  induction ts with
  | nil => intro acc _; exact (str_append_empty acc).symm
  | cons t ts' ih =>
    intro acc hacc
    rw [List.foldl_cons, appendTerm_of_ne t hacc,
      ih (acc ++ " AND " ++ t) (str_append_ne_empty_left t (str_append_ne_empty_left " AND " hacc))]
    apply str_ext
    simp [str_data_append, joinTermsSep]

theorem foldl_appendTerm_join (ts : List String) (h : ∀ t ∈ ts, t ≠ "") :
    ts.foldl appendTerm "" = joinTerms ts := by
  cases ts with
  | nil => rfl
  | cons t ts' =>
    rw [List.foldl_cons, appendTerm_empty_acc, joinTerms_cons_eq]
    exact foldl_appendTerm_of_ne ts' t (h t (List.mem_cons_self t ts'))

/-- The query built by `search_builder` is the `" AND "`-join of the
rendered terms of exactly the truthy fields, in order. -/
theorem search_builder_eq_joinTerms (params : List (String × FieldValue)) :
    search_builder params = joinTerms (termsList params) := by
  rw [search_builder, foldl_step_eq_foldl_appendTerm]
  exact foldl_appendTerm_join (termsList params) (termsList_mem_ne_empty params)

/-! ## C5: a term appears iff the field's value is non-default -/

/-- C5: a field value is skipped by `search_builder` exactly when it is
the empty string or the integer zero (Python falsiness), and the built
query is precisely the `" AND "`-join of the rendered terms of the
non-default fields, in mapping order — so the query contains a term for
a field iff that field's value is non-default. -/
theorem search_builder_omits_default_fields :
    (∀ v : FieldValue, truthy v = false ↔ v = FieldValue.str "" ∨ v = FieldValue.int 0) ∧
    ∀ params : List (String × FieldValue),
      search_builder params = joinTerms (termsList params) := by
  constructor
  · intro v
    cases v with
    | str s => simp [truthy]
    | int n => simp [truthy]
  · exact search_builder_eq_joinTerms

/-! ## Substring machinery: prefix and occurrence lemmas -/

theorem isPref_cons_iff (p c : Char) (ps cs : List Char) :
    isPref (p :: ps) (c :: cs) = true ↔ p = c ∧ isPref ps cs = true := by
  simp [isPref]

theorem isPref_append_self (p : List Char) : ∀ w, isPref p (p ++ w) = true := by
  induction p with
  | nil => intro w; rfl
  | cons c cs ih => intro w; simp [isPref, ih]

theorem isPref_of_le_length (pat : List Char) :
    ∀ u w, isPref pat (u ++ w) = true → pat.length ≤ u.length → isPref pat u = true := by
  induction pat with
  | nil => intro u w _ _; rfl
  | cons p ps ih =>
    intro u w hpref hlen
    cases u with
    | nil => simp at hlen
    | cons a u' =>
      rw [List.cons_append, isPref_cons_iff] at hpref
      rw [isPref_cons_iff]
      exact ⟨hpref.1, ih u' w hpref.2 (by simpa using hlen)⟩

theorem mem_of_isPref_boundary (c : Char) (ys : List Char) :
    ∀ u pat, isPref pat (u ++ c :: ys) = true → u.length < pat.length → c ∈ pat := by
  intro u
  induction u with
  | nil =>
    intro pat hpref hlen
    cases pat with
    | nil => simp at hlen
    | cons p ps =>
      rw [List.nil_append, isPref_cons_iff] at hpref
      rw [hpref.1]
      exact List.mem_cons_self c ps
  | cons a u' ih =>
    intro pat hpref hlen
    cases pat with
    | nil => simp at hlen
    | cons p ps =>
      rw [List.cons_append, isPref_cons_iff] at hpref
      exact List.mem_cons_of_mem p (ih ps hpref.2 (by simpa using hlen))

theorem hasSub_cons_false {pat : List Char} {c : Char} {r : List Char}
    (h : hasSub pat (c :: r) = false) :
    isPref pat (c :: r) = false ∧ hasSub pat r = false := by
  have := h
  rw [hasSub] at this
  simpa using this

/-- Inserting a character `c ∉ pat` between two strings free of `pat`
yields a string free of `pat`: no occurrence can cross the blocker. -/
theorem hasSub_append_blocker (pat : List Char) (hpat : pat ≠ []) (c : Char) (hc : c ∉ pat) :
    ∀ xs ys, hasSub pat xs = false → hasSub pat ys = false →
      hasSub pat (xs ++ c :: ys) = false := by
  intro xs
  induction xs with
  | nil =>
    intro ys _ hy
    rw [List.nil_append, hasSub]
    apply Bool.or_eq_false_iff.mpr
    refine ⟨?_, hy⟩
    cases pat with
    | nil => exact absurd rfl hpat
    | cons p ps =>
      by_cases hpc : p = c
      · exact absurd (hpc ▸ List.mem_cons_self p ps) hc
      · simp [isPref, hpc]
  | cons x xs' ih =>
    intro ys hx hy
    obtain ⟨hx1, hx2⟩ := hasSub_cons_false hx
    rw [List.cons_append, hasSub]
    apply Bool.or_eq_false_iff.mpr
    refine ⟨?_, ih ys hx2 hy⟩
    by_cases hpref : isPref pat ((x :: xs') ++ c :: ys) = true
    · by_cases hlen : pat.length ≤ (x :: xs').length
      · exact absurd (isPref_of_le_length pat (x :: xs') (c :: ys) hpref hlen) (by simp [hx1])
      · exact absurd (mem_of_isPref_boundary c ys (x :: xs') pat hpref (by omega)) hc
    · simpa using hpref

/-- A pattern occurs in any string of which it is an infix. -/
theorem hasSub_infix (p : List Char) : ∀ xs ys, hasSub p (xs ++ (p ++ ys)) = true := by
  intro xs
  induction xs with
  | nil =>
    intro ys
    cases p with
    | nil => cases ys <;> simp [hasSub, isPref]
    | cons q qs =>
      rw [List.nil_append, List.cons_append, hasSub]
      have := isPref_append_self (q :: qs) ys
      rw [List.cons_append] at this
      simp [this]
  | cons x xs' ih =>
    intro ys
    rw [List.cons_append, hasSub, ih ys]
    simp

theorem countSub_eq_zero_of_not_hasSub (pat : List Char) :
    ∀ s, hasSub pat s = false → countSub pat s = 0 := by
  intro s
  induction s with
  | nil => intro _; rfl
  | cons c r ih =>
    intro h
    obtain ⟨h1, h2⟩ := hasSub_cons_false h
    rw [countSub, h1, ih h2]
    simp

theorem isPref_weaken (x y : List Char) : ∀ s, isPref (x ++ y) s = true → isPref x s = true := by
  induction x with
  | nil => intro s _; rfl
  | cons a x' ih =>
    intro s h
    cases s with
    | nil => rw [List.cons_append] at h; exact absurd h (by simp [isPref])
    | cons c cs =>
      rw [List.cons_append, isPref_cons_iff] at h
      rw [isPref_cons_iff]
      exact ⟨h.1, ih cs h.2⟩

theorem hasSub_of_isPref (pat : List Char) (hpat : pat ≠ []) :
    ∀ s, isPref pat s = true → hasSub pat s = true := by
  intro s h
  cases s with
  | nil =>
    cases pat with
    | nil => exact absurd rfl hpat
    | cons p ps => simp [isPref] at h
  | cons c cs =>
    rw [hasSub, h]
    rfl

theorem hasSub_ANDL_of_hasSub_SEPL : ∀ t, hasSub SEPL t = true → hasSub ANDL t = true := by
  intro t
  induction t with
  | nil => intro h; simp [hasSub, SEPL] at h
  | cons c r ih =>
    intro h
    rw [hasSub] at h
    rcases Bool.or_eq_true_iff.mp h with h1 | h2
    · rw [show SEPL = ' ' :: ['A', 'N', 'D', ' '] from rfl, isPref_cons_iff] at h1
      have h3 : isPref ANDL r = true := isPref_weaken ANDL [' '] r h1.2
      have h4 : hasSub ANDL r = true := hasSub_of_isPref ANDL (by decide) r h3
      rw [hasSub, h4]
      simp
    · rw [hasSub, ih h2]
      simp

theorem hasSub_SEPL_eq_false {t : List Char} (h : hasSub ANDL t = false) :
    hasSub SEPL t = false := by
  cases hS : hasSub SEPL t with
  | false => rfl
  | true => exact absurd (hasSub_ANDL_of_hasSub_SEPL t hS) (by simp [h])

theorem countSub_append (pat : List Char) :
    ∀ xs ys, countSub pat (xs ++ ys) = countB pat xs ys + countSub pat ys := by
  intro xs
  induction xs with
  | nil => intro ys; simp [countB]
  | cons x xs' ih =>
    intro ys
    rw [List.cons_append, countSub, countB, ih ys]
    omega

/-- If `" AND "`'s tail `"AND "` is a prefix of `u ++ w`, where `w` is
empty or starts with a space, then `"AND"` already occurs inside `u`. -/
theorem hasSub_ANDL_of_isPref_ANDsp (u w : List Char) (hu : u ≠ [])
    (hw : w = [] ∨ ∃ w', w = ' ' :: w')
    (hpref : isPref ['A', 'N', 'D', ' '] (u ++ w) = true) :
    hasSub ANDL u = true := by
  rcases u with _ | ⟨a, _ | ⟨b, _ | ⟨d, _ | ⟨e, u4⟩⟩⟩⟩
  · exact absurd rfl hu
  · exfalso
    rcases hw with rfl | ⟨w', rfl⟩ <;> simp [isPref] at hpref
  · exfalso
    rcases hw with rfl | ⟨w', rfl⟩ <;> simp [isPref] at hpref
  · simp [isPref] at hpref
    obtain ⟨rfl, rfl, rfl, _⟩ := hpref
    decide
  · simp [isPref] at hpref
    obtain ⟨rfl, rfl, rfl, _⟩ := hpref
    rw [hasSub]
    rfl

/-- An occurrence of `" AND "` starting inside `c :: t'` and continuing
into a following `" AND " ++ w` forces an `"AND"` inside `c :: t'`. -/
theorem hasSub_ANDL_of_isPref_SEPL_mid (c : Char) (t' w : List Char)
    (hpref : isPref SEPL (c :: (t' ++ (SEPL ++ w))) = true) :
    hasSub ANDL (c :: t') = true := by
  rw [show SEPL = ' ' :: ['A', 'N', 'D', ' '] from rfl, isPref_cons_iff] at hpref
  obtain ⟨rfl, h2⟩ := hpref
  cases t' with
  | nil => simp [isPref, SEPL] at h2
  | cons b t'' =>
    have hb : hasSub ANDL (b :: t'') = true :=
      hasSub_ANDL_of_isPref_ANDsp (b :: t'') (SEPL ++ w) (by simp)
        (Or.inr ⟨['A', 'N', 'D', ' '] ++ w, rfl⟩) (by simpa using h2)
    rw [hasSub, hb]
    simp

/-- No occurrence of `" AND "` starts inside an `"AND"`-free block `t`
that is followed by a separator. -/
theorem countB_SEPL_zero (w : List Char) :
    ∀ t, hasSub ANDL t = false → countB SEPL t (SEPL ++ w) = 0 := by
  intro t
  induction t with
  | nil => intro _; rfl
  | cons c t' ih =>
    intro h
    obtain ⟨h1, h2⟩ := hasSub_cons_false h
    rw [countB]
    have hind : isPref SEPL (c :: (t' ++ (SEPL ++ w))) = false := by
      cases hP : isPref SEPL (c :: (t' ++ (SEPL ++ w))) with
      | false => rfl
      | true => exact absurd (hasSub_ANDL_of_isPref_SEPL_mid c t' w hP) (by simp [h])
    rw [hind, ih h2]
    simp

/-- Counting `" AND "` in `" AND " ++ w`: one occurrence at the front,
plus those of `w`, provided no occurrence straddles the trailing
space (`"AND "` not a prefix of `w`). -/
theorem countSub_SEPL_head (w : List Char)
    (hw : isPref ['A', 'N', 'D', ' '] w = false) :
    countSub SEPL (SEPL ++ w) = 1 + countSub SEPL w := by
  show countSub SEPL (' ' :: 'A' :: 'N' :: 'D' :: ' ' :: w) = 1 + countSub SEPL w
  have h0 : isPref SEPL (' ' :: 'A' :: 'N' :: 'D' :: ' ' :: w) = true := by
    have := isPref_append_self SEPL w
    simpa [SEPL] using this
  have h1 : isPref SEPL ('A' :: 'N' :: 'D' :: ' ' :: w) = false := rfl
  have h2 : isPref SEPL ('N' :: 'D' :: ' ' :: w) = false := rfl
  have h3 : isPref SEPL ('D' :: ' ' :: w) = false := rfl
  have h4 : isPref SEPL (' ' :: w) = false := by
    show isPref (' ' :: ['A', 'N', 'D', ' ']) (' ' :: w) = false
    rw [isPref]
    simp [hw]
  rw [countSub, countSub, countSub, countSub, countSub, h0, h1, h2, h3, h4]
  simp

/-- `"AND "` is not a prefix of an `"AND"`-free nonempty block followed
by nothing or by a space. -/
theorem notPref_ANDsp (u w : List Char) (hu : u ≠ []) (hAND : hasSub ANDL u = false)
    (hw : w = [] ∨ ∃ w', w = ' ' :: w') :
    isPref ['A', 'N', 'D', ' '] (u ++ w) = false := by
  cases hP : isPref ['A', 'N', 'D', ' '] (u ++ w) with
  | false => rfl
  | true => exact absurd (hasSub_ANDL_of_isPref_ANDsp u w hu hw hP) (by simp [hAND])

theorem joinTerms_cons_cons_data (t u : String) (ts : List String) :
    (joinTerms (t :: u :: ts)).data = t.data ++ (SEPL ++ (joinTerms (u :: ts)).data) := by
  show (t ++ " AND " ++ joinTerms (u :: ts)).data = _
  rw [str_data_append, str_data_append]
  rw [show (" AND " : String).data = SEPL from rfl, List.append_assoc]

theorem joinTerms_head_not_ANDsp (u : String) (ts : List String)
    (hu : u.data ≠ []) (hAND : hasSub ANDL u.data = false) :
    isPref ['A', 'N', 'D', ' '] (joinTerms (u :: ts)).data = false := by
  cases ts with
  | nil =>
    have h := notPref_ANDsp u.data [] hu hAND (Or.inl rfl)
    simpa [joinTerms] using h
  | cons v ts' =>
    rw [joinTerms_cons_cons_data]
    exact notPref_ANDsp u.data (SEPL ++ (joinTerms (v :: ts')).data) hu hAND
      (Or.inr ⟨['A', 'N', 'D', ' '] ++ (joinTerms (v :: ts')).data, rfl⟩)

/-- Occurrence count of the separator `" AND "` in the join of
nonempty, `"AND"`-free terms: exactly one per separator inserted. -/
theorem countSub_SEPL_joinTerms (ts : List String)
    (h : ∀ t ∈ ts, t.data ≠ [] ∧ hasSub ANDL t.data = false) :
    countSub SEPL (joinTerms ts).data = ts.length - 1 := by
  induction ts with
  | nil => rfl
  | cons t ts' ih =>
    cases ts' with
    | nil =>
      have ht := h t (List.mem_cons_self t [])
      show countSub SEPL (joinTerms [t]).data = 0
      rw [show joinTerms [t] = t from rfl]
      exact countSub_eq_zero_of_not_hasSub SEPL t.data (hasSub_SEPL_eq_false ht.2)
    | cons u ts'' =>
      have ht := h t (List.mem_cons_self _ _)
      have hu := h u (by simp)
      have hrest : ∀ x ∈ u :: ts'', x.data ≠ [] ∧ hasSub ANDL x.data = false := by
        intro x hx
        exact h x (List.mem_cons_of_mem t hx)
      rw [joinTerms_cons_cons_data, countSub_append, countB_SEPL_zero _ t.data ht.2,
        countSub_SEPL_head _ (joinTerms_head_not_ANDsp u ts'' hu.1 hu.2), ih hrest]
      simp [List.length_cons]
      omega

/-- A rendered term contains no `"AND"` when neither the field name nor
the rendered value does: the inserted `'('`, `')'`, `' '` characters
block any straddling occurrence. -/
theorem renderTerm_ANDL_free (k : String) (v : FieldValue)
    (hk : hasSub ANDL k.data = false) (hv : hasSub ANDL (render v).data = false) :
    hasSub ANDL (renderTerm k v).data = false := by
  unfold renderTerm
  by_cases h1 : k = "start_year"
  · rw [if_pos h1]
    have hd : ("PUBYEAR > " ++ render v).data =
        ['P', 'U', 'B', 'Y', 'E', 'A', 'R', ' ', '>'] ++ ' ' :: (render v).data := by
      rw [str_data_append]
      rfl
    rw [hd]
    exact hasSub_append_blocker ANDL (by decide) ' ' (by decide) _ _ (by decide) hv
  · rw [if_neg h1]
    by_cases h2 : k = "end_year"
    · rw [if_pos h2]
      have hd : ("PUBYEAR < " ++ render v).data =
          ['P', 'U', 'B', 'Y', 'E', 'A', 'R', ' ', '<'] ++ ' ' :: (render v).data := by
        rw [str_data_append]
        rfl
      rw [hd]
      exact hasSub_append_blocker ANDL (by decide) ' ' (by decide) _ _ (by decide) hv
    · rw [if_neg h2]
      have hinner : hasSub ANDL ((render v).data ++ ')' :: []) = false :=
        hasSub_append_blocker ANDL (by decide) ')' (by decide) _ _ hv (by decide)
      have hd : (k ++ "(" ++ render v ++ ")").data =
          k.data ++ '(' :: ((render v).data ++ ')' :: []) := by
        rw [str_data_append, str_data_append, str_data_append]
        simp
      rw [hd]
      exact hasSub_append_blocker ANDL (by decide) '(' (by decide) _ _ hk hinner

theorem termsList_ANDL_free (params : List (String × FieldValue))
    (hfree : ∀ kv ∈ params,
      hasSub ANDL kv.1.data = false ∧ hasSub ANDL (render kv.2).data = false) :
    ∀ t ∈ termsList params, t.data ≠ [] ∧ hasSub ANDL t.data = false := by
  intro t ht
  obtain ⟨kv, hkv, rfl⟩ := List.mem_map.mp ht
  have hkv' := hfree kv (List.mem_of_mem_filter hkv)
  refine ⟨?_, renderTerm_ANDL_free kv.1 kv.2 hkv'.1 hkv'.2⟩
  rw [← str_ne_empty_iff]
  exact renderTerm_ne_empty kv.1 kv.2

/-! ## C3: separator structure of the built query -/

/-- C3 counterexample: with the single non-default field
`TITLE = 'cat AND dog'` (a value the notebook itself suggests), the
builder returns exactly `TITLE(cat AND dog)` — one term, yet the
output contains one occurrence of `" AND "`, not the zero occurrences
the claim asserts for a single-field query. -/
theorem search_builder_and_inside_value_counterexample :
    search_builder [("TITLE", FieldValue.str "cat AND dog")] = "TITLE(cat AND dog)" ∧
    termsList [("TITLE", FieldValue.str "cat AND dog")] = ["TITLE(cat AND dog)"] ∧
    countSub SEPL (search_builder [("TITLE", FieldValue.str "cat AND dog")]).data = 1 := by
  refine ⟨by decide, by decide, by decide⟩

/-- C3, amended: provided no field name and no rendered value contains
the bare text `"AND"`, the built query of `N` non-default fields
contains exactly `N - 1` occurrences of `" AND "`; with no non-default
field it is the empty string, and with exactly one non-default field it
is exactly that field's term, with no `" AND "` occurrence.  (Without
that proviso the counts can exceed `N - 1`, as values may contain the
separator text themselves.) -/
theorem search_builder_separator_counts (params : List (String × FieldValue))
    (hfree : ∀ kv ∈ params,
      hasSub ANDL kv.1.data = false ∧ hasSub ANDL (render kv.2).data = false) :
    (termsList params).length = (params.filter fun kv => truthy kv.2).length ∧
    (termsList params = [] → search_builder params = "") ∧
    (∀ t, termsList params = [t] →
      search_builder params = t ∧ countSub SEPL (search_builder params).data = 0) ∧
    countSub SEPL (search_builder params).data = (termsList params).length - 1 := by
  have hterms := termsList_ANDL_free params hfree
  have hsb := search_builder_eq_joinTerms params
  refine ⟨by simp [termsList], ?_, ?_, ?_⟩
  · intro h0
    rw [hsb, h0]
    rfl
  · intro t ht
    have htm : t.data ≠ [] ∧ hasSub ANDL t.data = false := by
      apply hterms
      rw [ht]
      exact List.mem_cons_self t []
    constructor
    · rw [hsb, ht]
      rfl
    · rw [hsb, ht, show joinTerms [t] = t from rfl]
      exact countSub_eq_zero_of_not_hasSub SEPL t.data (hasSub_SEPL_eq_false htm.2)
  · rw [hsb]
    exact countSub_SEPL_joinTerms (termsList params) hterms

/-- Witness for C3's amended theorem: three non-default fields produce
exactly two `" AND "` separators. -/
theorem search_builder_separator_counts_witness :
    countSub SEPL (search_builder
      [("ISSN", FieldValue.str "23301643"), ("KEY", FieldValue.str ""),
       ("start_year", FieldValue.int 2013), ("end_year", FieldValue.int 2018)]).data =
    (termsList
      [("ISSN", FieldValue.str "23301643"), ("KEY", FieldValue.str ""),
       ("start_year", FieldValue.int 2013), ("end_year", FieldValue.int 2018)]).length - 1 :=
  (search_builder_separator_counts
    [("ISSN", FieldValue.str "23301643"), ("KEY", FieldValue.str ""),
     ("start_year", FieldValue.int 2013), ("end_year", FieldValue.int 2018)]
    (by decide)).2.2.2

/-! ## C6: URL substitution facts -/

/-- No occurrence of a pattern survives three pattern-free blocks glued
with three blocker characters (the URL shapes of both templates). -/
theorem hasSub_url_shape (pat pre mid q t : List Char) (c1 c2 c3 : Char)
    (hpat : pat ≠ []) (hpre : hasSub pat pre = false) (hmid : hasSub pat mid = false)
    (hq : hasSub pat q = false) (ht : hasSub pat t = false)
    (hc1 : c1 ∉ pat) (hc2 : c2 ∉ pat) (hc3 : c3 ∉ pat) :
    hasSub pat (pre ++ c1 :: (q ++ c2 :: (mid ++ c3 :: t))) = false := by
  have s1 : hasSub pat (mid ++ c3 :: t) = false :=
    hasSub_append_blocker pat hpat c3 hc3 mid t hmid ht
  have s2 : hasSub pat (q ++ c2 :: (mid ++ c3 :: t)) = false :=
    hasSub_append_blocker pat hpat c2 hc2 q _ hq s1
  exact hasSub_append_blocker pat hpat c1 hc1 pre _ hpre s2

theorem create_url_data (q t : String) :
    (create_url q t).data =
      ("https://api.elsevier.com/content/search/scopus?query=" : String).data ++
        (q.data ++ (("&apiKey=" : String).data ++ t.data)) := by
  unfold create_url
  rw [str_data_append, str_data_append, str_data_append]
  simp [List.append_assoc]

theorem create_url_data_shape (q t : String) :
    (create_url q t).data =
      ("https://api.elsevier.com/content/search/scopus?query" : String).data ++
        '=' :: (q.data ++ '&' :: (("apiKey" : String).data ++ '=' :: t.data)) := by
  have e1 : ("https://api.elsevier.com/content/search/scopus?query=" : String).data =
      ("https://api.elsevier.com/content/search/scopus?query" : String).data ++ ['='] := by
    decide
  have e2 : ("&apiKey=" : String).data =
      '&' :: (("apiKey" : String).data ++ ['=']) := by decide
  rw [create_url_data, e1, e2]
  simp [List.append_assoc]

theorem create_url_doi_data (doi t : String) :
    (create_url_doi doi t).data =
      ("https://api.elsevier.com/content/abstract/doi/" : String).data ++
        (doi.data ++ (("?&apiKey=" : String).data ++ t.data)) := by
  unfold create_url_doi
  rw [str_data_append, str_data_append, str_data_append]
  simp [List.append_assoc]

theorem create_url_doi_data_shape (doi t : String) :
    (create_url_doi doi t).data =
      ("https://api.elsevier.com/content/abstract/doi" : String).data ++
        '/' :: (doi.data ++ '?' :: (("&apiKey" : String).data ++ '=' :: t.data)) := by
  have e1 : ("https://api.elsevier.com/content/abstract/doi/" : String).data =
      ("https://api.elsevier.com/content/abstract/doi" : String).data ++ ['/'] := by
    decide
  have e2 : ("?&apiKey=" : String).data =
      '?' :: (("&apiKey" : String).data ++ ['=']) := by decide
  rw [create_url_doi_data, e1, e2]
  simp [List.append_assoc]

/-- C6 counterexample: for the query string `'{query}'` — a perfectly
legal input — the formatted URL does contain the placeholder text
`{query}`, contradicting the claim's universally quantified "no
remaining template placeholder text". -/
theorem create_url_placeholder_value_counterexample :
    hasSub phQuery.data (create_url phQuery "k").data = true := by decide

/-- C6, amended: for every query string, DOI and key that do not
themselves contain the placeholder texts, both `create_url` variants
return a URL containing the substituted values verbatim and containing
no placeholder text (`{query}`/`{api_key}` for the search template,
`{doi}`/`{api_key}` for the retrieval template). -/
theorem create_url_substitution (q t doi : String)
    (hq1 : hasSub phQuery.data q.data = false)
    (hq2 : hasSub phApiKey.data q.data = false)
    (ht1 : hasSub phQuery.data t.data = false)
    (ht2 : hasSub phApiKey.data t.data = false)
    (ht3 : hasSub phDoi.data t.data = false)
    (hd1 : hasSub phDoi.data doi.data = false)
    (hd2 : hasSub phApiKey.data doi.data = false) :
    hasSub q.data (create_url q t).data = true ∧
    hasSub t.data (create_url q t).data = true ∧
    hasSub phQuery.data (create_url q t).data = false ∧
    hasSub phApiKey.data (create_url q t).data = false ∧
    hasSub doi.data (create_url_doi doi t).data = true ∧
    hasSub t.data (create_url_doi doi t).data = true ∧
    hasSub phDoi.data (create_url_doi doi t).data = false ∧
    hasSub phApiKey.data (create_url_doi doi t).data = false := by
  refine ⟨?_, ?_, ?_, ?_, ?_, ?_, ?_, ?_⟩
  · rw [create_url_data]
    exact hasSub_infix q.data _ _
  · rw [create_url_data]
    have h := hasSub_infix t.data
      (("https://api.elsevier.com/content/search/scopus?query=" : String).data ++
        (q.data ++ ("&apiKey=" : String).data)) []
    simpa [List.append_assoc] using h
  · rw [create_url_data_shape]
    exact hasSub_url_shape phQuery.data _ _ q.data t.data '=' '&' '='
      (by decide) (by decide) (by decide) hq1 ht1 (by decide) (by decide) (by decide)
  · rw [create_url_data_shape]
    exact hasSub_url_shape phApiKey.data _ _ q.data t.data '=' '&' '='
      (by decide) (by decide) (by decide) hq2 ht2 (by decide) (by decide) (by decide)
  · rw [create_url_doi_data]
    exact hasSub_infix doi.data _ _
  · rw [create_url_doi_data]
    have h := hasSub_infix t.data
      (("https://api.elsevier.com/content/abstract/doi/" : String).data ++
        (doi.data ++ ("?&apiKey=" : String).data)) []
    simpa [List.append_assoc] using h
  · rw [create_url_doi_data_shape]
    exact hasSub_url_shape phDoi.data _ _ doi.data t.data '/' '?' '='
      (by decide) (by decide) (by decide) hd1 ht3 (by decide) (by decide) (by decide)
  · rw [create_url_doi_data_shape]
    exact hasSub_url_shape phApiKey.data _ _ doi.data t.data '/' '?' '='
      (by decide) (by decide) (by decide) hd2 ht2 (by decide) (by decide) (by decide)

/-- Witness for C6's amended theorem at concrete inputs. -/
theorem create_url_substitution_witness :
    hasSub ("ISSN(23301643)" : String).data
        (create_url "ISSN(23301643)" "KEY123").data = true ∧
    hasSub ("KEY123" : String).data (create_url "ISSN(23301643)" "KEY123").data = true ∧
    hasSub phQuery.data (create_url "ISSN(23301643)" "KEY123").data = false ∧
    hasSub phApiKey.data (create_url "ISSN(23301643)" "KEY123").data = false ∧
    hasSub ("10.1002/asi.23867" : String).data
        (create_url_doi "10.1002/asi.23867" "KEY123").data = true ∧
    hasSub ("KEY123" : String).data
        (create_url_doi "10.1002/asi.23867" "KEY123").data = true ∧
    hasSub phDoi.data (create_url_doi "10.1002/asi.23867" "KEY123").data = false ∧
    hasSub phApiKey.data (create_url_doi "10.1002/asi.23867" "KEY123").data = false :=
  create_url_substitution "ISSN(23301643)" "KEY123" "10.1002/asi.23867"
    (by decide) (by decide) (by decide) (by decide) (by decide) (by decide) (by decide)

/-! ## C7: persistence round-trip -/

theorem decodeStr_encodeStr (s : String) (r : List Nat) :
    decodeStr (encodeStr s ++ r) = some (s, r) := by
  show decodeStr ((s.length :: s.data.map Char.toNat) ++ r) = some (s, r)
  rw [List.cons_append, decodeStr]
  have hmap : (s.data.map Char.toNat).length = s.length := by
    rw [List.length_map]
    rfl
  have hle : s.length ≤ (s.data.map Char.toNat ++ r).length := by
    rw [List.length_append, hmap]
    omega
  rw [if_pos hle, List.take_left' hmap, List.drop_left' hmap, List.map_map]
  have hid : s.data.map (Char.ofNat ∘ Char.toNat) = s.data := by
    rw [show (Char.ofNat ∘ Char.toNat) = id from funext Char.ofNat_toNat, List.map_id]
  rw [hid]

theorem decodePair_encodePair (kv : String × String) (r : List Nat) :
    decodePair (encodePair kv ++ r) = some (kv, r) := by
  simp [decodePair, encodePair, List.append_assoc, decodeStr_encodeStr]

theorem decodeMany_encode {β : Type} (dec : List Nat → Option (β × List Nat))
    (enc : β → List Nat) (H : ∀ x r, dec (enc x ++ r) = some (x, r)) :
    ∀ (l : List β) (r : List Nat),
      decodeMany dec l.length ((l.map enc).flatten ++ r) = some (l, r) := by
  intro l
  induction l with
  | nil => intro r; simp [decodeMany]
  | cons x l' ih =>
    intro r
    rw [List.length_cons, List.map_cons, List.flatten_cons, List.append_assoc]
    simp [decodeMany, H, ih]

theorem decodeRow_encodeRow (row : List (String × String)) (r : List Nat) :
    decodeRow (encodeRow row ++ r) = some (row, r) := by
  show decodeRow ((row.length :: (row.map encodePair).flatten) ++ r) = some (row, r)
  rw [List.cons_append, decodeRow]
  exact decodeMany_encode decodePair encodePair decodePair_encodePair row r

/-- C7: deserializing a serialized ResultSet restores it exactly,
row for row and, within each row, field for field.  (`pickle` itself is
external to the repository; the persistence layer is modelled from the
spec's opaque-blob round-trip contract.) -/
theorem serialize_deserialize_roundtrip (t : ResultTable) :
    deserializeTable (serializeTable t) = some t := by
  have h := decodeMany_encode decodeRow encodeRow decodeRow_encodeRow t []
  rw [List.append_nil] at h
  show deserializeTable (t.length :: (t.map encodeRow).flatten) = some t
  rw [deserializeTable, h]
